import Mathlib

/-!
Verification of the SureFinance extraction-and-classification core.

The development shallowly embeds the two pattern-matching modules of the
repository:

* `detect_issuer` (src/backend/main.py and src/streamlit_app.py): a two-pass
  ordered keyword classifier over the lowercased statement text, embedded with
  an executable substring test `containsStr` standing for Python's `in`.
* `CreditCardParser`'s field extractors (src/backend/parsers.py): each runs an
  ordered list of regular-expression rules against the text and returns the
  first captured value, or the sentinel "N/A".  The regular expressions of the
  source use only single-character classes under quantifiers, literal words,
  alternation of literal words, word boundaries and capture groups, so they
  are embedded with a small executable backtracking engine (`RE`, `mrun`,
  `research`) whose preference order (leftmost position, greedy/lazy
  repetition, left-biased alternation) mirrors Python's `re.search`.

Numeric normalisation (`float(...)` followed by `f"₹{...:,.2f}"`) is embedded
over ℚ with round-half-to-even, which agrees with the source on every capture
with at most two fractional digits.
-/

namespace SureFinance

/-! ## String utilities -/

/-- Does `hay` start with `needle`?  (Executable prefix test.) -/
def prefCheck : List Char → List Char → Bool
  | [], _ => true
  | _ :: _, [] => false
  | a :: as, b :: bs => a == b && prefCheck as bs

/-- Does `hay` contain `needle` as a contiguous sublist?  Embeds Python's
`needle in hay` on strings. -/
def containsList (hay needle : List Char) : Bool :=
  match hay with
  | [] => needle.isEmpty
  | _ :: rest => prefCheck needle hay || containsList rest needle

/-- Python's `needle in hay` on strings. -/
def containsStr (hay needle : String) : Bool :=
  containsList hay.toList needle.toList

/-- Python's `str.lower()` (ASCII case folding, as in the source's inputs). -/
def lowerStr (s : String) : String :=
  (s.toList.map Char.toLower).asString

/-! ## Issuer classifier (`detect_issuer`)

Embeds `detect_issuer` from src/backend/main.py lines 55-100 (the copy in
src/streamlit_app.py lines 83-106 is identical).  The first `if/elif` chain
("precise phrase" pass) is `detectPass1`; the second chain ("loose keyword"
fallback) is `detectPass2`; the function lowercases its input once and falls
through the two passes to "unknown". -/

/-- Pass 1 of `detect_issuer`: full-name rules with explicit disambiguation,
in source order. -/
def detectPass1 (t : String) : Option String :=
  if containsStr t "development credit bank" || (containsStr t "dcb bank" && containsStr t "dcb") then some "dcb"
  else if containsStr t "hdfc bank" || (containsStr t "hdfc" && !containsStr t "housing development finance") then some "hdfc"
  else if containsStr t "icici bank" || containsStr t "icici" then some "icici"
  else if containsStr t "state bank of india" || (containsStr t "sbi" && containsStr t "state") then some "sbi"
  else if containsStr t "axis bank" || containsStr t "axis" then some "axis"
  else if containsStr t "kotak mahindra bank" || containsStr t "kotak mahindra" || containsStr t "kotak" then some "kotak"
  else if containsStr t "yes bank" then some "yes bank"
  else if containsStr t "indusind bank" || containsStr t "indusind" then some "indusind"
  else if containsStr t "onecard" || containsStr t "one card" then some "onecard"
  else none

/-- Pass 2 of `detect_issuer`: single-keyword fallback rules, in source
order. -/
def detectPass2 (t : String) : Option String :=
  if containsStr t "dcb" then some "dcb"
  else if containsStr t "hdfc" then some "hdfc"
  else if containsStr t "icici" then some "icici"
  else if containsStr t "sbi" then some "sbi"
  else if containsStr t "axis" then some "axis"
  else if containsStr t "kotak" then some "kotak"
  else if containsStr t "yes" && containsStr t "bank" then some "yes bank"
  else if containsStr t "indusind" then some "indusind"
  else if containsStr t "onecard" || containsStr t "one card" then some "onecard"
  else none

/-- `detect_issuer` from src/backend/main.py: lowercase the text, run the
precise-phrase pass, then the loose-keyword pass, else "unknown". -/
def detect_issuer (text : String) : String :=
  match detectPass1 (lowerStr text) with
  | some tag => tag
  | none =>
    match detectPass2 (lowerStr text) with
    | some tag => tag
    | none => "unknown"

/-- The closed set of issuer tags the classifier can return (besides
"unknown"). -/
def supportedTags : List String :=
  ["dcb", "hdfc", "icici", "sbi", "axis", "kotak", "yes bank", "indusind", "onecard"]

/-- The uniquely-disambiguating full institutional phrase of each issuer. -/
def issuerPhrase : String → String
  | "dcb" => "dcb bank"
  | "hdfc" => "hdfc bank"
  | "icici" => "icici bank"
  | "sbi" => "state bank of india"
  | "axis" => "axis bank"
  | "kotak" => "kotak mahindra bank"
  | "yes bank" => "yes bank"
  | "indusind" => "indusind bank"
  | "onecard" => "onecard"
  | _ => ""

/-- The keyword vocabulary of each issuer, as used by the classifier's rules
(a text avoiding every string in `issuerKeywordsOf tag` triggers none of
`tag`'s rules in either pass). -/
def issuerKeywordsOf : String → List String
  | "dcb" => ["dcb", "development credit bank"]
  | "hdfc" => ["hdfc"]
  | "icici" => ["icici"]
  | "sbi" => ["sbi", "state bank of india"]
  | "axis" => ["axis"]
  | "kotak" => ["kotak"]
  | "yes bank" => ["yes"]
  | "indusind" => ["indusind"]
  | "onecard" => ["onecard", "one card"]
  | _ => []

/-- Every string literal tested by some rule of `detect_issuer` (both
passes). -/
def allRuleKeywords : List String :=
  ["development credit bank", "dcb bank", "dcb",
   "hdfc bank", "hdfc",
   "icici bank", "icici",
   "state bank of india", "sbi", "state",
   "axis bank", "axis",
   "kotak mahindra bank", "kotak mahindra", "kotak",
   "yes bank", "yes", "bank",
   "indusind bank", "indusind",
   "onecard", "one card"]

/-! ## Regular-expression engine

The source's patterns use: literal words (under `re.IGNORECASE`),
single-character classes (`\d`, `\s`, `[₹$]`, `[\d,]`, `[/.-]`, `[x*]`, `.`),
quantifiers over such classes (`*`, `+`, `?`, `{n}`, `{m,n}`, `{8,}`, lazy
`.*?`), alternation of literal words, the word boundary `\b` and capture
groups.  `RE` covers exactly these constructs; `mrun` enumerates the matches
at a fixed position in backtracking preference order (greedy repetition
longest-first, lazy shortest-first, alternation left-biased), and `searchAux`
scans positions left to right, so `research` returns the captures of the
match Python's `re.search` finds. -/

/-- Result of matching a regex at a position: remaining text, the character
just before the remaining text (for `\b`), and captured group texts in group
order. -/
abbrev RunRes := List Char × Option Char × List String

/-- Regular expressions over single-character classes. -/
inductive RE where
  /-- Matches the empty string. -/
  | eps : RE
  /-- A single character satisfying `p`. -/
  | cls (p : Char → Bool) : RE
  /-- Concatenation. -/
  | seq (a b : RE) : RE
  /-- Alternation, left-biased as in Python. -/
  | alt (a b : RE) : RE
  /-- Greedy `p*`. -/
  | starG (p : Char → Bool) : RE
  /-- Lazy `p*?`. -/
  | starL (p : Char → Bool) : RE
  /-- Exactly `n` characters of class `p` (`p{n}`). -/
  | repE (n : Nat) (p : Char → Bool) : RE
  /-- Greedily up to `n` characters of class `p` (with `repE`, `p{m,n}`). -/
  | repU (n : Nat) (p : Char → Bool) : RE
  /-- The word boundary `\b`. -/
  | wordB : RE
  /-- A capture group. -/
  | group (a : RE) : RE

/-- Word characters for `\b` (Python `\w` on ASCII input). -/
def isWordChar (c : Char) : Bool := c.isAlphanum || c == '_'

/-- Is there a word boundary between `prev` and the next character? -/
def isBoundary (prev : Option Char) (next : Option Char) : Bool :=
  (prev.elim false isWordChar) != (next.elim false isWordChar)

/-- All ways a single class character can match. -/
def classRun (p : Char → Bool) (s : List Char) (_prev : Option Char) : List RunRes :=
  match s with
  | [] => []
  | c :: rest => if p c then [(rest, some c, [])] else []

/-- Greedy `p*`: longest matches first. -/
def starGRun (p : Char → Bool) : List Char → Option Char → List RunRes
  | [], prev => [([], prev, [])]
  | c :: rest, prev =>
    (if p c then starGRun p rest (some c) else []) ++ [(c :: rest, prev, [])]

/-- Lazy `p*?`: shortest matches first. -/
def starLRun (p : Char → Bool) : List Char → Option Char → List RunRes
  | [], prev => [([], prev, [])]
  | c :: rest, prev =>
    (c :: rest, prev, []) :: (if p c then starLRun p rest (some c) else [])

/-- Exactly `n` characters of class `p`. -/
def repERun (p : Char → Bool) : Nat → List Char → Option Char → List RunRes
  | 0, s, prev => [(s, prev, [])]
  | _ + 1, [], _ => []
  | n + 1, c :: rest, _ => if p c then repERun p n rest (some c) else []

/-- Greedily up to `n` characters of class `p`: longest first. -/
def repURun (p : Char → Bool) : Nat → List Char → Option Char → List RunRes
  | 0, s, prev => [(s, prev, [])]
  | _ + 1, [], prev => [([], prev, [])]
  | n + 1, c :: rest, prev =>
    (if p c then repURun p n rest (some c) else []) ++ [(c :: rest, prev, [])]

/-- All matches of `r` starting at the current position, in backtracking
preference order, with their captures. -/
def mrun : RE → List Char → Option Char → List RunRes
  | .eps, s, prev => [(s, prev, [])]
  | .cls p, s, prev => classRun p s prev
  | .seq a b, s, prev =>
    (mrun a s prev).flatMap fun r =>
      (mrun b r.1 r.2.1).map fun r2 => (r2.1, r2.2.1, r.2.2 ++ r2.2.2)
  | .alt a b, s, prev => mrun a s prev ++ mrun b s prev
  | .starG p, s, prev => starGRun p s prev
  | .starL p, s, prev => starLRun p s prev
  | .repE n p, s, prev => repERun p n s prev
  | .repU n p, s, prev => repURun p n s prev
  | .wordB, s, prev => if isBoundary prev s.head? then [(s, prev, [])] else []
  | .group a, s, prev =>
    (mrun a s prev).map fun r =>
      (r.1, r.2.1, ((s.take (s.length - r.1.length)).asString) :: r.2.2)

/-- Scan positions left to right; at the first position where `r` matches,
return the captures of the preferred match (Python `re.search`). -/
def searchAux (r : RE) : List Char → Option Char → Option (List String)
  | s, prev =>
    match mrun r s prev with
    | res :: _ => some res.2.2
    | [] =>
      match s with
      | [] => none
      | c :: rest => searchAux r rest (some c)

/-- `re.search(pattern, text)`, returning the list of captured groups of the
match when one exists. -/
def research (r : RE) (text : String) : Option (List String) :=
  searchAux r text.toList none

/-! ## The source's patterns -/

/-- Concatenation of a list of regexes. -/
def pySeq (l : List RE) : RE := l.foldr RE.seq RE.eps

/-- A case-insensitive literal word (each pattern letter is lowercase; the
input character is case-folded, as under `re.IGNORECASE`). -/
def lit (pat : String) : RE :=
  pySeq (pat.toList.map fun c => RE.cls fun x => x.toLower == c)

/-- Python `\s` (ASCII whitespace set). -/
def pySpace (c : Char) : Bool :=
  c == ' ' || c == '\t' || c == '\n' || c == '\r' || c == '\x0b' || c == '\x0c'

/-- The class `[:\s]`. -/
def colSp (c : Char) : Bool := c == ':' || pySpace c

/-- The class `[/.-]` of date separators. -/
def sepP (c : Char) : Bool := c == '/' || c == '.' || c == '-'

/-- The class `[\d,]`. -/
def digComma (c : Char) : Bool := c.isDigit || c == ','

/-- The class `[₹$]`. -/
def currP (c : Char) : Bool := c == '₹' || c == '$'

/-- The class `[x*]` under `re.IGNORECASE`. -/
def xStarP (c : Char) : Bool := c.toLower == 'x' || c == '*'

/-- The class `[-x*\s]` under `re.IGNORECASE`. -/
def dashXSp (c : Char) : Bool := c == '-' || c.toLower == 'x' || c == '*' || pySpace c

/-- Python `.` (any character but a newline). -/
def dotP (c : Char) : Bool := !(c == '\n')

/-- `\s+`. -/
def sp1 : RE := RE.seq (RE.cls pySpace) (RE.starG pySpace)

/-- `\s*`. -/
def sp0 : RE := RE.starG pySpace

/-- `[:\s]+`. -/
def colSp1 : RE := RE.seq (RE.cls colSp) (RE.starG colSp)

/-- `[₹$]?`. -/
def currOpt : RE := RE.repU 1 currP

/-- `(\d{4})`. -/
def d4 : RE := RE.repE 4 Char.isDigit

/-- `\d+`. -/
def dPlus : RE := RE.seq (RE.cls Char.isDigit) (RE.starG Char.isDigit)

/-- `s?` (optional plural, case-insensitive). -/
def optS : RE := RE.repU 1 fun c => c.toLower == 's'

/-- `\.?`. -/
def optDot : RE := RE.repU 1 fun c => c == '.'

/-- `\d{1,2}[/.-]\d{1,2}[/.-]\d{2,4}`: the date token. -/
def dateTok : RE :=
  pySeq [RE.repE 1 Char.isDigit, RE.repU 1 Char.isDigit, RE.cls sepP,
         RE.repE 1 Char.isDigit, RE.repU 1 Char.isDigit, RE.cls sepP,
         RE.repE 2 Char.isDigit, RE.repU 2 Char.isDigit]

/-- A captured date token. -/
def dateGroup : RE := RE.group dateTok

/-- `([\d,]+\.?\d*)`: the captured amount. -/
def amountGroup : RE :=
  RE.group (pySeq [RE.cls digComma, RE.starG digComma, optDot, RE.starG Char.isDigit])

/-- `[₹$]?\s*([\d,]+\.?\d*)`, the common amount tail of the balance and
charge rules. -/
def amountTail : List RE := [colSp1, currOpt, sp0, amountGroup]

/-- The nine patterns of `extract_last_four_digits`, in source order
(src/backend/parsers.py lines 20-30). -/
def lastFourPatterns : List RE :=
  [pySeq [lit "****", sp0, RE.group d4],
   pySeq [lit "xxxx", sp0, RE.group d4],
   pySeq [lit "ending", sp1, lit "in", sp1, RE.group d4],
   pySeq [lit "card", sp1, lit "ending", sp1, RE.group d4],
   pySeq [lit "card", sp1, lit "number", sp1, lit "ending", sp1, RE.group d4],
   pySeq [RE.group d4, sp0, lit "ending"],
   pySeq [RE.wordB, RE.group d4, sp0, RE.alt (lit "ending") (lit "expires")],
   pySeq [lit "card", sp1, lit "no", RE.cls (fun c => c == '.' || c == ':'), sp0,
          RE.cls xStarP, RE.starG xStarP, sp0, RE.group d4],
   pySeq [RE.repE 8 xStarP, RE.starG xStarP, sp0, RE.group d4]]

/-- `\b\d{4}\s+\d{4}\s+\d{4}\s+(\d{4})\b` (parsers.py line 38). -/
def card_pattern : RE :=
  pySeq [RE.wordB, d4, sp1, d4, sp1, d4, sp1, RE.group d4, RE.wordB]

/-- `(?:card|account).*?[-x*\s]+(\d{4})\b` (parsers.py line 44). -/
def indian_pattern : RE :=
  pySeq [RE.alt (lit "card") (lit "account"), RE.starL dotP,
         RE.cls dashXSp, RE.starG dashXSp, RE.group d4, RE.wordB]

/-- The seven patterns of `extract_billing_cycle`, in source order
(parsers.py lines 54-62). -/
def billingPatterns : List RE :=
  [pySeq [lit "billing", sp1, lit "period", colSp1, dateGroup, sp1, lit "to", sp1, dateGroup],
   pySeq [lit "statement", sp1, lit "period", colSp1, dateGroup, sp1, lit "to", sp1, dateGroup],
   pySeq [lit "billing", sp1, lit "cycle", colSp1, dateGroup, sp1, lit "to", sp1, dateGroup],
   pySeq [dateGroup, sp1, lit "through", sp1, dateGroup],
   pySeq [dateGroup, sp1, lit "-", sp1, dateGroup],
   pySeq [lit "from", sp1, dateGroup, sp1, lit "to", sp1, dateGroup],
   pySeq [lit "period", colSp1, dateGroup, sp1, lit "to", sp1, dateGroup]]

/-- The eight patterns of `extract_payment_due_date`, in source order
(parsers.py lines 76-85). -/
def duePatterns : List RE :=
  [pySeq [lit "payment", sp1, lit "due", sp1, lit "date", colSp1, dateGroup],
   pySeq [lit "due", sp1, lit "date", colSp1, dateGroup],
   pySeq [lit "minimum", sp1, lit "payment", sp1, lit "due", sp1, lit "by", colSp1, dateGroup],
   pySeq [lit "pay", sp1, lit "by", colSp1, dateGroup],
   pySeq [lit "payment", sp1, lit "due", sp1, lit "on", colSp1, dateGroup],
   pySeq [lit "payable", sp1, lit "by", colSp1, dateGroup],
   pySeq [lit "payable", sp1, lit "on", sp1, lit "or", sp1, lit "before", colSp1, dateGroup],
   pySeq [lit "due", sp1, lit "by", colSp1, dateGroup]]

/-- The thirteen patterns of `extract_total_balance`, in source order
(parsers.py lines 96-110). -/
def balancePatterns : List RE :=
  [pySeq ([lit "total", sp1, lit "balance"] ++ amountTail),
   pySeq ([lit "new", sp1, lit "balance"] ++ amountTail),
   pySeq ([lit "current", sp1, lit "balance"] ++ amountTail),
   pySeq ([lit "outstanding", sp1, lit "balance"] ++ amountTail),
   pySeq ([lit "amount", sp1, lit "due"] ++ amountTail),
   pySeq ([lit "total", sp1, lit "amount", sp1, lit "due"] ++ amountTail),
   pySeq ([lit "outstanding", sp1, lit "amount"] ++ amountTail),
   pySeq ([lit "balance", sp1, lit "amount"] ++ amountTail),
   pySeq ([lit "balance"] ++ amountTail),
   pySeq [lit "₹", sp0, amountGroup],
   pySeq [lit "rupee", optS, sp0, amountGroup],
   pySeq [lit "rs", optDot, sp0, amountGroup],
   pySeq [lit "inr", sp0, amountGroup]]

/-- The five count patterns of `extract_transaction_info`, in source order
(parsers.py lines 126-132). -/
def countPatterns : List RE :=
  [pySeq [RE.group dPlus, sp1, lit "transaction", optS],
   pySeq [lit "total", sp1, lit "transaction", optS, colSp1, RE.group dPlus],
   pySeq [lit "number", sp1, lit "of", sp1, lit "transaction", optS, colSp1, RE.group dPlus],
   pySeq [lit "transaction", sp1, lit "count", colSp1, RE.group dPlus],
   pySeq [lit "no", optDot, sp1, lit "of", sp1, lit "transaction", optS, colSp1, RE.group dPlus]]

/-- The nine charge patterns of `extract_transaction_info`, in source order
(parsers.py lines 142-152); the last two are the bare-currency fallbacks. -/
def chargePatterns : List RE :=
  [pySeq ([lit "total", sp1, lit "charge", optS] ++ amountTail),
   pySeq ([lit "total", sp1, lit "purchase", optS] ++ amountTail),
   pySeq ([lit "total", sp1, lit "spend"] ++ amountTail),
   pySeq ([lit "total", sp1, lit "debit", optS] ++ amountTail),
   pySeq ([lit "total", sp1, lit "spending"] ++ amountTail),
   pySeq ([lit "charge", optS, sp1, lit "this", sp1, lit "period"] ++ amountTail),
   pySeq ([lit "purchase", optS, sp1, lit "this", sp1, lit "period"] ++ amountTail),
   pySeq [lit "₹", sp0, amountGroup],
   pySeq [lit "rs", optDot, sp0, amountGroup]]

/-! ## Numeric normalisation

The source strips `,` and spaces from a captured amount, parses it with
`float(...)` and renders `f"₹{...:,.2f}"`.  Captures match `[\d,]+\.?\d*`, so
after stripping they are digit strings with at most one dot; `parseAmount`
returns their exact value as an unreduced numerator/denominator pair (and
`none` exactly when `float` would raise `ValueError`, i.e. no digit at all),
and `fmtCurrency` renders two fixed decimals (round half to even, as Python's
formatting does) with thousands separators. -/

/-- Python's `.replace(',', '').replace(' ', '')`. -/
def stripAmount (s : String) : String :=
  (s.toList.filter fun c => !(c == ',' || c == ' ')).asString

/-- Value of a decimal digit string. -/
def digitsVal (l : List Char) : Nat :=
  l.foldl (fun a c => a * 10 + (c.toNat - 48)) 0

/-- `float(s)` for the stripped captures (digits with at most one dot):
`none` exactly when there is no digit to parse. -/
def parseAmount (s : String) : Option (Nat × Nat) :=
  match s.toList.splitOn '.' with
  | [ip] =>
    if !ip.isEmpty && ip.all Char.isDigit then some (digitsVal ip, 1) else none
  | [ip, fp] =>
    if !(ip ++ fp).isEmpty && (ip ++ fp).all Char.isDigit then
      some (digitsVal ip * 10 ^ fp.length + digitsVal fp, 10 ^ fp.length)
    else none
  | _ => none

/-- Decimal digits of a natural number (structural fuel recursion). -/
def natDigitsAux (fuel n : Nat) (acc : List Char) : List Char :=
  match fuel with
  | 0 => acc
  | fuel + 1 =>
    let acc := Char.ofNat (48 + n % 10) :: acc
    if n < 10 then acc else natDigitsAux fuel (n / 10) acc

/-- Decimal digits of a natural number. -/
def natDigits (n : Nat) : List Char := natDigitsAux (n + 1) n []

/-- Insert a thousands separator after every third character of a reversed
digit list. -/
def commaGroupRev : List Char → List Char
  | a :: b :: c :: d :: rest => a :: b :: c :: ',' :: commaGroupRev (d :: rest)
  | l => l

/-- Thousands grouping of a digit string. -/
def withCommas (l : List Char) : List Char := (commaGroupRev l.reverse).reverse

/-- `f"₹{v:,.2f}"`: round to whole cents (half to even) and render with
thousands separators and two decimals. -/
def fmtCurrency (v : Nat × Nat) : String :=
  let t := v.1 * 100
  let q := t / v.2
  let r := t % v.2
  let cents := if 2 * r < v.2 then q
               else if v.2 < 2 * r then q + 1
               else if q % 2 = 0 then q else q + 1
  let ip := cents / 100
  let fp := cents % 100
  ('₹' :: withCommas (natDigits ip) ++
    '.' :: (if fp < 10 then '0' :: natDigits fp else natDigits fp)).asString

/-! ## Field extractors

Each extractor walks its ordered rule list; the first rule whose `re.search`
succeeds returns its first captured group (`match.group(1)`) immediately, and
the sentinel "N/A" is returned when no rule matches. -/

/-- The generic first-match-wins driver: captures of the first rule that
matches the text, in listed order. -/
def firstMatch : List RE → String → Option (List String)
  | [], _ => none
  | r :: rest, text =>
    match research r text with
    | some caps => some caps
    | none => firstMatch rest text

/-- `extract_last_four_digits` (parsers.py lines 17-49): the nine-rule loop,
then the grouped full-card-number pattern, then the Indian masked pattern,
else "N/A". -/
def extract_last_four_digits (text : String) : String :=
  match firstMatch lastFourPatterns text with
  | some (d :: _) => d
  | _ =>
    match research card_pattern text with
    | some (d :: _) => d
    | _ =>
      match research indian_pattern text with
      | some (d :: _) => d
      | _ => "N/A"

/-- Billing cycle result: start and end markers. -/
structure BillingCycle where
  start_date : String
  end_date : String
deriving DecidableEq

/-- `extract_billing_cycle` (parsers.py lines 51-72): the first matching
range rule fills both dates from its two groups; otherwise both fields are
"N/A". -/
def extract_billing_cycle (text : String) : BillingCycle :=
  match firstMatch billingPatterns text with
  | some (a :: b :: _) => ⟨a, b⟩
  | _ => ⟨"N/A", "N/A"⟩

/-- `extract_payment_due_date` (parsers.py lines 74-92). -/
def extract_payment_due_date (text : String) : String :=
  match firstMatch duePatterns text with
  | some (d :: _) => d
  | _ => "N/A"

/-- The amount-rule loop shared by `extract_total_balance` and the charges
half of `extract_transaction_info`: on a match, strip separators and parse;
a parse failure (`ValueError`) is a rule non-match and the loop continues. -/
def runAmountRules : List RE → String → Option String
  | [], _ => none
  | r :: rest, text =>
    match research r text with
    | some caps =>
      match parseAmount (stripAmount (caps.headD "")) with
      | some v => some (fmtCurrency v)
      | none => runAmountRules rest text
    | none => runAmountRules rest text

/-- `extract_total_balance` (parsers.py lines 94-121). -/
def extract_total_balance (text : String) : String :=
  (runAmountRules balancePatterns text).getD "N/A"

/-- Transaction summary result. -/
structure TransactionInfo where
  transaction_count : String
  total_charges : String
deriving DecidableEq

/-- `extract_transaction_info` (parsers.py lines 123-168): the count rule
list and the charges rule list run independently over the same text. -/
def extract_transaction_info (text : String) : TransactionInfo where
  transaction_count :=
    match firstMatch countPatterns text with
    | some (d :: _) => d
    | _ => "N/A"
  total_charges := (runAmountRules chargePatterns text).getD "N/A"

/-! ## Capture invariants

Infrastructure for the billing-cycle both-or-neither property: the two
captures of every billing-cycle rule are date tokens, so a captured string
consists of digits and date separators and can never equal the sentinel
"N/A". -/

/-- Every character accepted by class `p` satisfies `P`. -/
def clsImp (p P : Char → Bool) : Prop := ∀ c, p c = true → P c = true

/-- `r` consumes only characters satisfying `P`. -/
inductive ConsumesOnly (P : Char → Bool) : RE → Prop where
  | eps : ConsumesOnly P .eps
  | cls {p} : clsImp p P → ConsumesOnly P (.cls p)
  | seq {a b} : ConsumesOnly P a → ConsumesOnly P b → ConsumesOnly P (.seq a b)
  | alt {a b} : ConsumesOnly P a → ConsumesOnly P b → ConsumesOnly P (.alt a b)
  | starG {p} : clsImp p P → ConsumesOnly P (.starG p)
  | starL {p} : clsImp p P → ConsumesOnly P (.starL p)
  | repE {n p} : clsImp p P → ConsumesOnly P (.repE n p)
  | repU {n p} : clsImp p P → ConsumesOnly P (.repU n p)
  | wordB : ConsumesOnly P .wordB
  | group {a} : ConsumesOnly P a → ConsumesOnly P (.group a)

/-- Every capture group of `r` captures only characters satisfying `P`. -/
inductive CapsIn (P : Char → Bool) : RE → Prop where
  | eps : CapsIn P .eps
  | cls {p} : CapsIn P (.cls p)
  | seq {a b} : CapsIn P a → CapsIn P b → CapsIn P (.seq a b)
  | alt {a b} : CapsIn P a → CapsIn P b → CapsIn P (.alt a b)
  | starG {p} : CapsIn P (.starG p)
  | starL {p} : CapsIn P (.starL p)
  | repE {n p} : CapsIn P (.repE n p)
  | repU {n p} : CapsIn P (.repU n p)
  | wordB : CapsIn P .wordB
  | group {a} : ConsumesOnly P a → CapsIn P a → CapsIn P (.group a)

/-- Characters a date token can contain: digits and the separators `/.-`. -/
def dateP (c : Char) : Bool := c.isDigit || sepP c

/-! ## Substring lemmas -/

theorem prefCheck_iff (nd hay : List Char) :
    prefCheck nd hay = true ↔ ∃ rest, hay = nd ++ rest := by
  induction nd generalizing hay with
  | nil => simp [prefCheck]
  | cons a as ih =>
    cases hay with
    | nil => simp [prefCheck]
    | cons b bs =>
      simp only [prefCheck, Bool.and_eq_true, beq_iff_eq, ih, List.cons_append,
        List.cons.injEq]
      constructor
      · rintro ⟨rfl, rest, rfl⟩; exact ⟨rest, rfl, rfl⟩
      · rintro ⟨rest, rfl, rfl⟩; exact ⟨rfl, rest, rfl⟩

theorem containsList_iff (hay nd : List Char) :
    containsList hay nd = true ↔ ∃ pre post, hay = pre ++ nd ++ post := by
  induction hay with
  | nil =>
    simp only [containsList, List.isEmpty_iff]
    constructor
    · rintro rfl; exact ⟨[], [], rfl⟩
    · rintro ⟨pre, post, h⟩
      rcases List.append_eq_nil.mp (List.append_eq_nil.mp h.symm).1 with ⟨-, h2⟩
      exact h2
  | cons c rest ih =>
    simp only [containsList, Bool.or_eq_true, prefCheck_iff, ih]
    constructor
    · rintro (⟨r, hr⟩ | ⟨pre, post, hp⟩)
      · exact ⟨[], r, by simp [hr]⟩
      · exact ⟨c :: pre, post, by simp [hp]⟩
    · rintro ⟨pre, post, hp⟩
      cases pre with
      | nil => exact Or.inl ⟨post, by simpa using hp⟩
      | cons p ps =>
        right
        rcases List.cons.injEq .. ▸ hp with ⟨-, h2⟩
        exact ⟨ps, post, by simpa using h2⟩

theorem containsStr_trans {t p q : String} (h1 : containsStr t p = true)
    (h2 : containsStr p q = true) : containsStr t q = true := by
  rw [containsStr, containsList_iff] at h1 h2 ⊢
  obtain ⟨a, b, hab⟩ := h1
  obtain ⟨c, d, hcd⟩ := h2
  exact ⟨a ++ c, d ++ b, by rw [hab, hcd]; simp [List.append_assoc]⟩

theorem not_contains_of {t p q : String} (hq : containsStr t q = false)
    (hpq : containsStr p q = true) : containsStr t p = false := by
  cases hcp : containsStr t p with
  | false => rfl
  | true => exact absurd (containsStr_trans hcp hpq) (by simp [hq])

/-! ## Issuer classifier lemmas -/

theorem detectPass1_mem (t : String) :
    ∀ tag, detectPass1 t = some tag → tag ∈ supportedTags := by
  intro tag
  unfold detectPass1
  repeat' split
  all_goals rintro ⟨⟩ <;> decide

theorem detectPass2_mem (t : String) :
    ∀ tag, detectPass2 t = some tag → tag ∈ supportedTags := by
  intro tag
  unfold detectPass2
  repeat' split
  all_goals rintro ⟨⟩ <;> decide

/-! ## C1: the "housing development finance" exclusion -/

/-- C1 (counterexample): the claim "for every text containing bare `hdfc`
together with `housing development finance` and without `hdfc bank`,
`classify` does NOT return the HDFC tag" is false on the code: the exclusion
guards only the precise-phrase pass, and the loose-keyword fallback pass
still matches bare `hdfc`.  At the text
"hdfc housing development finance", all three side conditions of the claim
hold, yet `detect_issuer` returns "hdfc". -/
theorem c1_counterexample :
    containsStr (lowerStr "hdfc housing development finance") "hdfc" = true ∧
    containsStr (lowerStr "hdfc housing development finance")
      "housing development finance" = true ∧
    containsStr (lowerStr "hdfc housing development finance") "hdfc bank" = false ∧
    detect_issuer "hdfc housing development finance" = "hdfc" := by
  refine ⟨by decide, by decide, by decide, by decide⟩

/-- C1 (amended): the disambiguating exclusion holds within the
precise-phrase pass: for every text containing bare `hdfc` together with
`housing development finance` and without `hdfc bank`, pass 1 of
`detect_issuer` never yields the HDFC tag (the tag can then only arise from
the loose-keyword fallback pass). -/
theorem c1_amended (text : String)
    (h1 : containsStr (lowerStr text) "hdfc" = true)
    (h2 : containsStr (lowerStr text) "housing development finance" = true)
    (h3 : containsStr (lowerStr text) "hdfc bank" = false) :
    detectPass1 (lowerStr text) ≠ some "hdfc" := by
  unfold detectPass1
  simp only [h1, h2, h3, Bool.not_true, Bool.and_false, Bool.or_false, Bool.false_or]
  repeat' split
  all_goals first
    | exact absurd (by assumption : (false : Bool) = true) (by decide)
    | decide

/-- Witness for C1 (amended) at the counterexample text. -/
theorem c1_amended_witness :
    detectPass1 (lowerStr "hdfc housing development finance") ≠ some "hdfc" :=
  c1_amended "hdfc housing development finance" (by decide) (by decide) (by decide)

/-! ## C6: unique phrases classify correctly -/

/-- C6: for every supported issuer, a text containing that issuer's
uniquely-disambiguating institutional phrase and no other issuer's phrase or
keyword is classified as that issuer. -/
theorem c6_unique_phrase (tag : String) (htag : tag ∈ supportedTags) (text : String)
    (hph : containsStr (lowerStr text) (issuerPhrase tag) = true)
    (hex : ∀ tag' ∈ supportedTags, tag' ≠ tag →
      ∀ kw ∈ issuerKeywordsOf tag', containsStr (lowerStr text) kw = false) :
    detect_issuer text = tag := by
  fin_cases htag
  · -- dcb
    have hph' : containsStr (lowerStr text) "dcb bank" = true := hph
    have hdcb : containsStr (lowerStr text) "dcb" = true :=
      containsStr_trans hph' (by decide)
    simp [detect_issuer, detectPass1, hph', hdcb]
  · -- hdfc
    have hph' : containsStr (lowerStr text) "hdfc bank" = true := hph
    have fdev : containsStr (lowerStr text) "development credit bank" = false :=
      hex "dcb" (by decide) (by decide) "development credit bank" (by decide)
    have fdcb : containsStr (lowerStr text) "dcb" = false :=
      hex "dcb" (by decide) (by decide) "dcb" (by decide)
    have fdcbb : containsStr (lowerStr text) "dcb bank" = false :=
      not_contains_of fdcb (by decide)
    simp [detect_issuer, detectPass1, hph', fdev, fdcb, fdcbb]
  · -- icici
    have hph' : containsStr (lowerStr text) "icici bank" = true := hph
    have fdev : containsStr (lowerStr text) "development credit bank" = false :=
      hex "dcb" (by decide) (by decide) "development credit bank" (by decide)
    have fdcb : containsStr (lowerStr text) "dcb" = false :=
      hex "dcb" (by decide) (by decide) "dcb" (by decide)
    have fdcbb : containsStr (lowerStr text) "dcb bank" = false :=
      not_contains_of fdcb (by decide)
    have fhdfc : containsStr (lowerStr text) "hdfc" = false :=
      hex "hdfc" (by decide) (by decide) "hdfc" (by decide)
    have fhdfcb : containsStr (lowerStr text) "hdfc bank" = false :=
      not_contains_of fhdfc (by decide)
    simp [detect_issuer, detectPass1, hph', fdev, fdcb, fdcbb, fhdfc, fhdfcb]
  · -- sbi
    have hph' : containsStr (lowerStr text) "state bank of india" = true := hph
    have fdev : containsStr (lowerStr text) "development credit bank" = false :=
      hex "dcb" (by decide) (by decide) "development credit bank" (by decide)
    have fdcb : containsStr (lowerStr text) "dcb" = false :=
      hex "dcb" (by decide) (by decide) "dcb" (by decide)
    have fdcbb : containsStr (lowerStr text) "dcb bank" = false :=
      not_contains_of fdcb (by decide)
    have fhdfc : containsStr (lowerStr text) "hdfc" = false :=
      hex "hdfc" (by decide) (by decide) "hdfc" (by decide)
    have fhdfcb : containsStr (lowerStr text) "hdfc bank" = false :=
      not_contains_of fhdfc (by decide)
    have ficici : containsStr (lowerStr text) "icici" = false :=
      hex "icici" (by decide) (by decide) "icici" (by decide)
    have ficicib : containsStr (lowerStr text) "icici bank" = false :=
      not_contains_of ficici (by decide)
    simp [detect_issuer, detectPass1, hph', fdev, fdcb, fdcbb, fhdfc, fhdfcb,
      ficici, ficicib]
  · -- axis
    have hph' : containsStr (lowerStr text) "axis bank" = true := hph
    have fdev : containsStr (lowerStr text) "development credit bank" = false :=
      hex "dcb" (by decide) (by decide) "development credit bank" (by decide)
    have fdcb : containsStr (lowerStr text) "dcb" = false :=
      hex "dcb" (by decide) (by decide) "dcb" (by decide)
    have fdcbb : containsStr (lowerStr text) "dcb bank" = false :=
      not_contains_of fdcb (by decide)
    have fhdfc : containsStr (lowerStr text) "hdfc" = false :=
      hex "hdfc" (by decide) (by decide) "hdfc" (by decide)
    have fhdfcb : containsStr (lowerStr text) "hdfc bank" = false :=
      not_contains_of fhdfc (by decide)
    have ficici : containsStr (lowerStr text) "icici" = false :=
      hex "icici" (by decide) (by decide) "icici" (by decide)
    have ficicib : containsStr (lowerStr text) "icici bank" = false :=
      not_contains_of ficici (by decide)
    have fsbi : containsStr (lowerStr text) "sbi" = false :=
      hex "sbi" (by decide) (by decide) "sbi" (by decide)
    have fsboi : containsStr (lowerStr text) "state bank of india" = false :=
      hex "sbi" (by decide) (by decide) "state bank of india" (by decide)
    simp [detect_issuer, detectPass1, hph', fdev, fdcb, fdcbb, fhdfc, fhdfcb,
      ficici, ficicib, fsbi, fsboi]
  · -- kotak
    have hph' : containsStr (lowerStr text) "kotak mahindra bank" = true := hph
    have fdev : containsStr (lowerStr text) "development credit bank" = false :=
      hex "dcb" (by decide) (by decide) "development credit bank" (by decide)
    have fdcb : containsStr (lowerStr text) "dcb" = false :=
      hex "dcb" (by decide) (by decide) "dcb" (by decide)
    have fdcbb : containsStr (lowerStr text) "dcb bank" = false :=
      not_contains_of fdcb (by decide)
    have fhdfc : containsStr (lowerStr text) "hdfc" = false :=
      hex "hdfc" (by decide) (by decide) "hdfc" (by decide)
    have fhdfcb : containsStr (lowerStr text) "hdfc bank" = false :=
      not_contains_of fhdfc (by decide)
    have ficici : containsStr (lowerStr text) "icici" = false :=
      hex "icici" (by decide) (by decide) "icici" (by decide)
    have ficicib : containsStr (lowerStr text) "icici bank" = false :=
      not_contains_of ficici (by decide)
    have fsbi : containsStr (lowerStr text) "sbi" = false :=
      hex "sbi" (by decide) (by decide) "sbi" (by decide)
    have fsboi : containsStr (lowerStr text) "state bank of india" = false :=
      hex "sbi" (by decide) (by decide) "state bank of india" (by decide)
    have faxis : containsStr (lowerStr text) "axis" = false :=
      hex "axis" (by decide) (by decide) "axis" (by decide)
    have faxisb : containsStr (lowerStr text) "axis bank" = false :=
      not_contains_of faxis (by decide)
    simp [detect_issuer, detectPass1, hph', fdev, fdcb, fdcbb, fhdfc, fhdfcb,
      ficici, ficicib, fsbi, fsboi, faxis, faxisb]
  · -- yes bank
    have hph' : containsStr (lowerStr text) "yes bank" = true := hph
    have fdev : containsStr (lowerStr text) "development credit bank" = false :=
      hex "dcb" (by decide) (by decide) "development credit bank" (by decide)
    have fdcb : containsStr (lowerStr text) "dcb" = false :=
      hex "dcb" (by decide) (by decide) "dcb" (by decide)
    have fdcbb : containsStr (lowerStr text) "dcb bank" = false :=
      not_contains_of fdcb (by decide)
    have fhdfc : containsStr (lowerStr text) "hdfc" = false :=
      hex "hdfc" (by decide) (by decide) "hdfc" (by decide)
    have fhdfcb : containsStr (lowerStr text) "hdfc bank" = false :=
      not_contains_of fhdfc (by decide)
    have ficici : containsStr (lowerStr text) "icici" = false :=
      hex "icici" (by decide) (by decide) "icici" (by decide)
    have ficicib : containsStr (lowerStr text) "icici bank" = false :=
      not_contains_of ficici (by decide)
    have fsbi : containsStr (lowerStr text) "sbi" = false :=
      hex "sbi" (by decide) (by decide) "sbi" (by decide)
    have fsboi : containsStr (lowerStr text) "state bank of india" = false :=
      hex "sbi" (by decide) (by decide) "state bank of india" (by decide)
    have faxis : containsStr (lowerStr text) "axis" = false :=
      hex "axis" (by decide) (by decide) "axis" (by decide)
    have faxisb : containsStr (lowerStr text) "axis bank" = false :=
      not_contains_of faxis (by decide)
    have fkotak : containsStr (lowerStr text) "kotak" = false :=
      hex "kotak" (by decide) (by decide) "kotak" (by decide)
    have fkmb : containsStr (lowerStr text) "kotak mahindra bank" = false :=
      not_contains_of fkotak (by decide)
    have fkm : containsStr (lowerStr text) "kotak mahindra" = false :=
      not_contains_of fkotak (by decide)
    simp [detect_issuer, detectPass1, hph', fdev, fdcb, fdcbb, fhdfc, fhdfcb,
      ficici, ficicib, fsbi, fsboi, faxis, faxisb, fkotak, fkmb, fkm]
  · -- indusind
    have hph' : containsStr (lowerStr text) "indusind bank" = true := hph
    have fdev : containsStr (lowerStr text) "development credit bank" = false :=
      hex "dcb" (by decide) (by decide) "development credit bank" (by decide)
    have fdcb : containsStr (lowerStr text) "dcb" = false :=
      hex "dcb" (by decide) (by decide) "dcb" (by decide)
    have fdcbb : containsStr (lowerStr text) "dcb bank" = false :=
      not_contains_of fdcb (by decide)
    have fhdfc : containsStr (lowerStr text) "hdfc" = false :=
      hex "hdfc" (by decide) (by decide) "hdfc" (by decide)
    have fhdfcb : containsStr (lowerStr text) "hdfc bank" = false :=
      not_contains_of fhdfc (by decide)
    have ficici : containsStr (lowerStr text) "icici" = false :=
      hex "icici" (by decide) (by decide) "icici" (by decide)
    have ficicib : containsStr (lowerStr text) "icici bank" = false :=
      not_contains_of ficici (by decide)
    have fsbi : containsStr (lowerStr text) "sbi" = false :=
      hex "sbi" (by decide) (by decide) "sbi" (by decide)
    have fsboi : containsStr (lowerStr text) "state bank of india" = false :=
      hex "sbi" (by decide) (by decide) "state bank of india" (by decide)
    have faxis : containsStr (lowerStr text) "axis" = false :=
      hex "axis" (by decide) (by decide) "axis" (by decide)
    have faxisb : containsStr (lowerStr text) "axis bank" = false :=
      not_contains_of faxis (by decide)
    have fkotak : containsStr (lowerStr text) "kotak" = false :=
      hex "kotak" (by decide) (by decide) "kotak" (by decide)
    have fkmb : containsStr (lowerStr text) "kotak mahindra bank" = false :=
      not_contains_of fkotak (by decide)
    have fkm : containsStr (lowerStr text) "kotak mahindra" = false :=
      not_contains_of fkotak (by decide)
    have fyes : containsStr (lowerStr text) "yes" = false :=
      hex "yes bank" (by decide) (by decide) "yes" (by decide)
    have fyesb : containsStr (lowerStr text) "yes bank" = false :=
      not_contains_of fyes (by decide)
    simp [detect_issuer, detectPass1, hph', fdev, fdcb, fdcbb, fhdfc, fhdfcb,
      ficici, ficicib, fsbi, fsboi, faxis, faxisb, fkotak, fkmb, fkm, fyes, fyesb]
  · -- onecard
    have hph' : containsStr (lowerStr text) "onecard" = true := hph
    have fdev : containsStr (lowerStr text) "development credit bank" = false :=
      hex "dcb" (by decide) (by decide) "development credit bank" (by decide)
    have fdcb : containsStr (lowerStr text) "dcb" = false :=
      hex "dcb" (by decide) (by decide) "dcb" (by decide)
    have fdcbb : containsStr (lowerStr text) "dcb bank" = false :=
      not_contains_of fdcb (by decide)
    have fhdfc : containsStr (lowerStr text) "hdfc" = false :=
      hex "hdfc" (by decide) (by decide) "hdfc" (by decide)
    have fhdfcb : containsStr (lowerStr text) "hdfc bank" = false :=
      not_contains_of fhdfc (by decide)
    have ficici : containsStr (lowerStr text) "icici" = false :=
      hex "icici" (by decide) (by decide) "icici" (by decide)
    have ficicib : containsStr (lowerStr text) "icici bank" = false :=
      not_contains_of ficici (by decide)
    have fsbi : containsStr (lowerStr text) "sbi" = false :=
      hex "sbi" (by decide) (by decide) "sbi" (by decide)
    have fsboi : containsStr (lowerStr text) "state bank of india" = false :=
      hex "sbi" (by decide) (by decide) "state bank of india" (by decide)
    have faxis : containsStr (lowerStr text) "axis" = false :=
      hex "axis" (by decide) (by decide) "axis" (by decide)
    have faxisb : containsStr (lowerStr text) "axis bank" = false :=
      not_contains_of faxis (by decide)
    have fkotak : containsStr (lowerStr text) "kotak" = false :=
      hex "kotak" (by decide) (by decide) "kotak" (by decide)
    have fkmb : containsStr (lowerStr text) "kotak mahindra bank" = false :=
      not_contains_of fkotak (by decide)
    have fkm : containsStr (lowerStr text) "kotak mahindra" = false :=
      not_contains_of fkotak (by decide)
    have fyes : containsStr (lowerStr text) "yes" = false :=
      hex "yes bank" (by decide) (by decide) "yes" (by decide)
    have fyesb : containsStr (lowerStr text) "yes bank" = false :=
      not_contains_of fyes (by decide)
    have find : containsStr (lowerStr text) "indusind" = false :=
      hex "indusind" (by decide) (by decide) "indusind" (by decide)
    have findb : containsStr (lowerStr text) "indusind bank" = false :=
      not_contains_of find (by decide)
    simp [detect_issuer, detectPass1, hph', fdev, fdcb, fdcbb, fhdfc, fhdfcb,
      ficici, ficicib, fsbi, fsboi, faxis, faxisb, fkotak, fkmb, fkm, fyes, fyesb,
      find, findb]

/-- Witness for C6 at issuer "sbi" and the text "State Bank of India". -/
theorem c6_witness : detect_issuer "State Bank of India" = "sbi" :=
  c6_unique_phrase "sbi" (by decide) "State Bank of India" (by decide) (by decide)

/-! ## C7: totality of the classifier -/

/-- C7: `detect_issuer` is total: for every text it returns exactly one tag
from the closed issuer set extended with "unknown" (and, being a function,
never raises); and for any text containing none of the keyword strings
tested by either pass's rules, it returns "unknown". -/
theorem c7_classifier_total (text : String) :
    detect_issuer text ∈ "unknown" :: supportedTags ∧
    ((∀ kw ∈ allRuleKeywords, containsStr (lowerStr text) kw = false) →
      detect_issuer text = "unknown") := by
  constructor
  · unfold detect_issuer
    split
    · next tag h => exact List.mem_cons_of_mem _ (detectPass1_mem _ tag h)
    · split
      · next tag h => exact List.mem_cons_of_mem _ (detectPass2_mem _ tag h)
      · exact List.mem_cons_self _ _
  · intro hkw
    have f01 := hkw "development credit bank" (by decide)
    have f02 := hkw "dcb bank" (by decide)
    have f03 := hkw "dcb" (by decide)
    have f04 := hkw "hdfc bank" (by decide)
    have f05 := hkw "hdfc" (by decide)
    have f06 := hkw "icici bank" (by decide)
    have f07 := hkw "icici" (by decide)
    have f08 := hkw "state bank of india" (by decide)
    have f09 := hkw "sbi" (by decide)
    have f10 := hkw "axis bank" (by decide)
    have f11 := hkw "axis" (by decide)
    have f12 := hkw "kotak mahindra bank" (by decide)
    have f13 := hkw "kotak mahindra" (by decide)
    have f14 := hkw "kotak" (by decide)
    have f15 := hkw "yes bank" (by decide)
    have f16 := hkw "yes" (by decide)
    have f17 := hkw "indusind bank" (by decide)
    have f18 := hkw "indusind" (by decide)
    have f19 := hkw "onecard" (by decide)
    have f20 := hkw "one card" (by decide)
    simp [detect_issuer, detectPass1, detectPass2, f01, f02, f03, f04, f05, f06,
      f07, f08, f09, f10, f11, f12, f13, f14, f15, f16, f17, f18, f19, f20]

/-- Witness for C7 at the empty text, which contains no issuer keyword. -/
theorem c7_witness :
    detect_issuer "" ∈ "unknown" :: supportedTags ∧ detect_issuer "" = "unknown" :=
  ⟨(c7_classifier_total "").1, (c7_classifier_total "").2 (by decide)⟩

/-! ## C2, C8, C9: concrete extraction vectors -/

/-- C2: the card-suffix extractor returns "4532" for "Card ending 4532",
returns the last 4-digit group "4532" for the grouped 16-digit number
"4111 1111 1111 4532", and returns the sentinel for an isolated "4532" with
no anchoring phrase or masking marker. -/
theorem c2_card_suffix :
    extract_last_four_digits "Card ending 4532" = "4532" ∧
    extract_last_four_digits "4111 1111 1111 4532" = "4532" ∧
    extract_last_four_digits "4532" = "N/A" :=
  ⟨by decide, by decide, by decide⟩

/-- C8: for "Total Balance: $2,456.78" the total-balance extractor strips the
thousands separator and returns the fixed-precision rupee-prefixed rendering
of 2456.78, even though the detected input symbol was "$". -/
theorem c8_balance_normalisation :
    extract_total_balance "Total Balance: $2,456.78" = "₹2,456.78" := by
  decide

/-- C9: the transaction-summary extractor evaluates its count rules and its
charges rules independently: a text with both phrase families yields both
values, and dropping either family only sends its own sub-result to the
sentinel. -/
theorem c9_transaction_independent :
    extract_transaction_info "Total Transactions: 10\nTotal Charges: $1,992.28" =
      ⟨"10", "₹1,992.28"⟩ ∧
    extract_transaction_info "Total Transactions: 10" = ⟨"10", "N/A"⟩ ∧
    extract_transaction_info "Total Charges: $1,992.28" = ⟨"N/A", "₹1,992.28"⟩ :=
  ⟨by decide, by decide, by decide⟩

/-! ## C5: rule order and short-circuit -/

/-- C5: the rule driver evaluates its list in the fixed listed order and the
first matching rule's captures are returned immediately: if every rule before
`ri` fails on the text and both `ri` and a later rule `rj` match, the result
is `ri`'s captures, never `rj`'s. -/
theorem c5_first_match_priority (text : String) (pre mid post : List RE)
    (ri rj : RE) (ci cj : List String)
    (hpre : ∀ r ∈ pre, research r text = none)
    (hi : research ri text = some ci)
    (_hj : research rj text = some cj) :
    firstMatch (pre ++ ri :: mid ++ rj :: post) text = some ci := by
  induction pre with
  | nil => simp [firstMatch, hi]
  | cons p ps ih =>
    have hp : research p text = none := hpre p (by simp)
    simp only [List.cons_append, firstMatch, hp]
    exact ih fun r hr => hpre r (by simp [hr])

/-- Witness for C5: the first two payment-due-date rules both match
"Payment Due Date: 01/02/2024"; the first one's capture is returned. -/
theorem c5_witness :
    firstMatch ([] ++ (duePatterns.headD RE.eps) :: [] ++ (duePatterns.getD 1 RE.eps) :: [])
      "Payment Due Date: 01/02/2024" = some ["01/02/2024"] :=
  c5_first_match_priority "Payment Due Date: 01/02/2024" [] [] []
    (duePatterns.headD RE.eps) (duePatterns.getD 1 RE.eps)
    ["01/02/2024"] ["01/02/2024"] (by simp) (by decide) (by decide)

/-! ## C3: numeric parse failure is a rule non-match -/

theorem runAmountRules_skip (text : String) (pre post : List RE) (r : RE)
    (caps : List String) (hm : research r text = some caps)
    (hp : parseAmount (stripAmount (caps.headD "")) = none) :
    runAmountRules (pre ++ r :: post) text = runAmountRules (pre ++ post) text := by
  induction pre with
  | nil => simp only [List.nil_append, runAmountRules, hm, hp]
  | cons q qs ih =>
    cases hq : research q text with
    | none =>
      simp only [List.cons_append, runAmountRules, hq]
      exact ih
    | some capsq =>
      cases hpq : parseAmount (stripAmount (capsq.headD "")) with
      | none =>
        simp only [List.cons_append, runAmountRules, hq, hpq]
        exact ih
      | some v => simp only [List.cons_append, runAmountRules, hq, hpq]

/-- C3: when an amount rule of the total-balance extractor matches but its
captured text fails the numeric parse, the rule behaves as a non-match: the
extractor's result is that of the rule list with the failing rule removed
(falling through to a later match or the sentinel), and the embedding is a
total function, so no input raises. -/
theorem c3_parse_failure_skips (text : String) (pre post : List RE) (r : RE)
    (caps : List String) (hbp : balancePatterns = pre ++ r :: post)
    (hm : research r text = some caps)
    (hp : parseAmount (stripAmount (caps.headD "")) = none) :
    extract_total_balance text = (runAmountRules (pre ++ post) text).getD "N/A" := by
  unfold extract_total_balance
  rw [hbp, runAmountRules_skip text pre post r caps hm hp]

/-- Witness for C3: on "total balance: ,," the first balance rule matches
with capture ",,", whose stripped form "" fails the numeric parse; the
extractor falls through the remaining rules to "N/A". -/
theorem c3_witness :
    extract_total_balance "total balance: ,," =
      (runAmountRules ([] ++ balancePatterns.tail) "total balance: ,,").getD "N/A" :=
  c3_parse_failure_skips "total balance: ,," [] balancePatterns.tail
    (balancePatterns.headD RE.eps) [",,"] rfl (by decide) (by decide)

/-! ## C10: bare-currency fallback of the charges rules -/

theorem runAmountRules_append_none (text : String) (a b : List RE)
    (h : runAmountRules a text = none) :
    runAmountRules (a ++ b) text = runAmountRules b text := by
  induction a with
  | nil => simp
  | cons r rs ih =>
    cases hr : research r text with
    | none =>
      simp only [runAmountRules, hr] at h
      simp only [List.cons_append, runAmountRules, hr]
      exact ih h
    | some caps =>
      cases hp : parseAmount (stripAmount (caps.headD "")) with
      | none =>
        simp only [runAmountRules, hr, hp] at h
        simp only [List.cons_append, runAmountRules, hr, hp]
        exact ih h
      | some v =>
        simp only [runAmountRules, hr, hp] at h
        exact absurd h (by simp)

theorem runAmountRules_fmt (text : String) (rules : List RE) (out : String)
    (h : runAmountRules rules text = some out) : ∃ v, out = fmtCurrency v := by
  induction rules with
  | nil => simp [runAmountRules] at h
  | cons r rs ih =>
    cases hr : research r text with
    | none =>
      simp only [runAmountRules, hr] at h
      exact ih h
    | some caps =>
      cases hp : parseAmount (stripAmount (caps.headD "")) with
      | none =>
        simp only [runAmountRules, hr, hp] at h
        exact ih h
      | some v =>
        simp only [runAmountRules, hr, hp, Option.some.injEq] at h
        exact ⟨v, h.symm⟩

theorem fmtCurrency_head (v : Nat × Nat) :
    (fmtCurrency v).toList.head? = some '₹' := rfl

theorem fmtCurrency_ne_sentinel (v : Nat × Nat) : fmtCurrency v ≠ "N/A" := by
  intro h
  have hh := fmtCurrency_head v
  rw [h] at hh
  exact absurd hh (by decide)

/-- C10 (implicit): the charges rule list of the transaction-summary
extractor ends with bare-currency fallback rules; whenever the seven labeled
charge rules all fail to produce a value and the bare-currency tail (a `₹` or
`Rs` amount) produces one, that normalized amount is the total-charges
sub-result and it is never the sentinel — even for text with no
transaction-related wording at all. -/
theorem c10_bare_currency_fallback (text out : String)
    (h1 : runAmountRules (chargePatterns.take 7) text = none)
    (h2 : runAmountRules (chargePatterns.drop 7) text = some out) :
    (extract_transaction_info text).total_charges = out ∧ out ≠ "N/A" := by
  constructor
  · have hsplit : (runAmountRules chargePatterns text).getD "N/A" = out := by
      rw [← List.take_append_drop 7 chargePatterns,
        runAmountRules_append_none text _ _ h1, h2]
      rfl
    simpa [extract_transaction_info] using hsplit
  · obtain ⟨v, rfl⟩ := runAmountRules_fmt text _ out h2
    exact fmtCurrency_ne_sentinel v

/-- Witness for C10: "shop ₹123.45 thanks" has no charge-related wording,
yet the bare ₹ fallback fills total charges. -/
theorem c10_witness :
    (extract_transaction_info "shop ₹123.45 thanks").total_charges = "₹123.45" ∧
    "₹123.45" ≠ "N/A" :=
  c10_bare_currency_fallback "shop ₹123.45 thanks" "₹123.45" (by decide) (by decide)

/-! ## C4: engine capture invariants and the both-or-neither property -/

theorem starGRun_spec (p : Char → Bool) :
    ∀ s prev res, res ∈ starGRun p s prev →
      res.2.2 = [] ∧ ∃ t, t ++ res.1 = s ∧ ∀ c ∈ t, p c = true := by
  intro s
  induction s with
  | nil =>
    intro prev res h
    simp only [starGRun, List.mem_singleton] at h
    subst h
    exact ⟨rfl, [], rfl, by simp⟩
  | cons c rest ih =>
    intro prev res h
    simp only [starGRun, List.mem_append, List.mem_singleton] at h
    rcases h with h | h
    · by_cases hc : p c
      · rw [if_pos hc] at h
        obtain ⟨hcaps, t, ht, hP⟩ := ih (some c) res h
        refine ⟨hcaps, c :: t, by simp [ht], ?_⟩
        intro x hx
        rcases List.mem_cons.mp hx with rfl | hx
        · exact hc
        · exact hP x hx
      · rw [if_neg hc] at h
        exact absurd h (List.not_mem_nil res)
    · subst h
      exact ⟨rfl, [], rfl, by simp⟩

theorem starLRun_spec (p : Char → Bool) :
    ∀ s prev res, res ∈ starLRun p s prev →
      res.2.2 = [] ∧ ∃ t, t ++ res.1 = s ∧ ∀ c ∈ t, p c = true := by
  intro s
  induction s with
  | nil =>
    intro prev res h
    simp only [starLRun, List.mem_singleton] at h
    subst h
    exact ⟨rfl, [], rfl, by simp⟩
  | cons c rest ih =>
    intro prev res h
    simp only [starLRun, List.mem_cons] at h
    rcases h with h | h
    · subst h
      exact ⟨rfl, [], rfl, by simp⟩
    · by_cases hc : p c
      · rw [if_pos hc] at h
        obtain ⟨hcaps, t, ht, hP⟩ := ih (some c) res h
        refine ⟨hcaps, c :: t, by simp [ht], ?_⟩
        intro x hx
        rcases List.mem_cons.mp hx with rfl | hx
        · exact hc
        · exact hP x hx
      · rw [if_neg hc] at h
        exact absurd h (List.not_mem_nil res)

theorem repERun_spec (p : Char → Bool) :
    ∀ n s prev res, res ∈ repERun p n s prev →
      res.2.2 = [] ∧ ∃ t, t ++ res.1 = s ∧ ∀ c ∈ t, p c = true := by
  intro n
  induction n with
  | zero =>
    intro s prev res h
    simp only [repERun, List.mem_singleton] at h
    subst h
    exact ⟨rfl, [], rfl, by simp⟩
  | succ n ih =>
    intro s prev res h
    cases s with
    | nil => exact absurd h (List.not_mem_nil res)
    | cons c rest =>
      by_cases hc : p c
      · rw [repERun, if_pos hc] at h
        obtain ⟨hcaps, t, ht, hP⟩ := ih rest (some c) res h
        refine ⟨hcaps, c :: t, by simp [ht], ?_⟩
        intro x hx
        rcases List.mem_cons.mp hx with rfl | hx
        · exact hc
        · exact hP x hx
      · rw [repERun, if_neg hc] at h
        exact absurd h (List.not_mem_nil res)

theorem repURun_spec (p : Char → Bool) :
    ∀ n s prev res, res ∈ repURun p n s prev →
      res.2.2 = [] ∧ ∃ t, t ++ res.1 = s ∧ ∀ c ∈ t, p c = true := by
  intro n
  induction n with
  | zero =>
    intro s prev res h
    simp only [repURun, List.mem_singleton] at h
    subst h
    exact ⟨rfl, [], rfl, by simp⟩
  | succ n ih =>
    intro s prev res h
    cases s with
    | nil =>
      simp only [repURun, List.mem_singleton] at h
      subst h
      exact ⟨rfl, [], rfl, by simp⟩
    | cons c rest =>
      simp only [repURun, List.mem_append, List.mem_singleton] at h
      rcases h with h | h
      · by_cases hc : p c
        · rw [if_pos hc] at h
          obtain ⟨hcaps, t, ht, hP⟩ := ih rest (some c) res h
          refine ⟨hcaps, c :: t, by simp [ht], ?_⟩
          intro x hx
          rcases List.mem_cons.mp hx with rfl | hx
          · exact hc
          · exact hP x hx
        · rw [if_neg hc] at h
          exact absurd h (List.not_mem_nil res)
      · subst h
        exact ⟨rfl, [], rfl, by simp⟩

theorem mrun_consumesOnly {P : Char → Bool} {r : RE} (h : ConsumesOnly P r) :
    ∀ s prev res, res ∈ mrun r s prev →
      ∃ t, t ++ res.1 = s ∧ ∀ c ∈ t, P c = true := by
  induction h with
  | eps =>
    intro s prev res h
    simp only [mrun, List.mem_singleton] at h
    subst h
    exact ⟨[], rfl, by simp⟩
  | @cls p himp =>
    intro s prev res h
    cases s with
    | nil => exact absurd h (List.not_mem_nil res)
    | cons c rest =>
      by_cases hc : p c
      · rw [mrun, classRun, if_pos hc] at h
        rcases List.mem_singleton.mp h with rfl
        refine ⟨[c], rfl, ?_⟩
        intro x hx
        rcases List.mem_singleton.mp hx with rfl
        exact himp x hc
      · rw [mrun, classRun, if_neg hc] at h
        exact absurd h (List.not_mem_nil res)
  | seq ha hb iha ihb =>
    intro s prev res h
    simp only [mrun, List.mem_flatMap, List.mem_map] at h
    obtain ⟨r1, hr1, r2, hr2, rfl⟩ := h
    obtain ⟨t1, ht1, hP1⟩ := iha s prev r1 hr1
    obtain ⟨t2, ht2, hP2⟩ := ihb r1.1 r1.2.1 r2 hr2
    refine ⟨t1 ++ t2, ?_, ?_⟩
    · rw [List.append_assoc, ht2, ht1]
    · intro c hc
      rcases List.mem_append.mp hc with hc | hc
      · exact hP1 c hc
      · exact hP2 c hc
  | alt ha hb iha ihb =>
    intro s prev res h
    rcases List.mem_append.mp h with h | h
    · exact iha s prev res h
    · exact ihb s prev res h
  | @starG p himp =>
    intro s prev res h
    obtain ⟨-, t, ht, hP⟩ := starGRun_spec p s prev res h
    exact ⟨t, ht, fun c hc => himp c (hP c hc)⟩
  | @starL p himp =>
    intro s prev res h
    obtain ⟨-, t, ht, hP⟩ := starLRun_spec p s prev res h
    exact ⟨t, ht, fun c hc => himp c (hP c hc)⟩
  | @repE n p himp =>
    intro s prev res h
    obtain ⟨-, t, ht, hP⟩ := repERun_spec p n s prev res h
    exact ⟨t, ht, fun c hc => himp c (hP c hc)⟩
  | @repU n p himp =>
    intro s prev res h
    obtain ⟨-, t, ht, hP⟩ := repURun_spec p n s prev res h
    exact ⟨t, ht, fun c hc => himp c (hP c hc)⟩
  | wordB =>
    intro s prev res h
    rw [mrun] at h
    split at h
    · rcases List.mem_singleton.mp h with rfl
      exact ⟨[], rfl, by simp⟩
    · exact absurd h (List.not_mem_nil res)
  | group hg ihg =>
    intro s prev res h
    simp only [mrun, List.mem_map] at h
    obtain ⟨r1, hr1, rfl⟩ := h
    obtain ⟨t, ht, hP⟩ := ihg s prev r1 hr1
    exact ⟨t, ht, hP⟩

theorem mrun_capsIn {P : Char → Bool} {r : RE} (h : CapsIn P r) :
    ∀ s prev res, res ∈ mrun r s prev →
      ∀ str ∈ res.2.2, ∀ c ∈ str.toList, P c = true := by
  induction h with
  | eps =>
    intro s prev res h
    simp only [mrun, List.mem_singleton] at h
    subst h
    simp
  | @cls p =>
    intro s prev res h
    cases s with
    | nil => exact absurd h (List.not_mem_nil res)
    | cons c rest =>
      by_cases hc : p c
      · rw [mrun, classRun, if_pos hc] at h
        rcases List.mem_singleton.mp h with rfl
        simp
      · rw [mrun, classRun, if_neg hc] at h
        exact absurd h (List.not_mem_nil res)
  | seq ha hb iha ihb =>
    intro s prev res h
    simp only [mrun, List.mem_flatMap, List.mem_map] at h
    obtain ⟨r1, hr1, r2, hr2, rfl⟩ := h
    intro str hstr
    rcases List.mem_append.mp hstr with hstr | hstr
    · exact iha s prev r1 hr1 str hstr
    · exact ihb r1.1 r1.2.1 r2 hr2 str hstr
  | alt ha hb iha ihb =>
    intro s prev res h
    rcases List.mem_append.mp h with h | h
    · exact iha s prev res h
    · exact ihb s prev res h
  | @starG p =>
    intro s prev res h
    rw [(starGRun_spec p s prev res h).1]
    simp
  | @starL p =>
    intro s prev res h
    rw [(starLRun_spec p s prev res h).1]
    simp
  | @repE n p =>
    intro s prev res h
    rw [(repERun_spec p n s prev res h).1]
    simp
  | @repU n p =>
    intro s prev res h
    rw [(repURun_spec p n s prev res h).1]
    simp
  | wordB =>
    intro s prev res h
    rw [mrun] at h
    split at h
    · rcases List.mem_singleton.mp h with rfl
      simp
    · exact absurd h (List.not_mem_nil res)
  | group hcons hcaps ihcaps =>
    intro s prev res h
    simp only [mrun, List.mem_map] at h
    obtain ⟨r1, hr1, rfl⟩ := h
    intro str hstr
    rcases List.mem_cons.mp hstr with rfl | hstr
    · obtain ⟨t, ht, hP⟩ := mrun_consumesOnly hcons s prev r1 hr1
      have hlen : s.length - r1.1.length = t.length := by
        rw [← ht]
        simp
      have htake : s.take (s.length - r1.1.length) = t := by
        rw [hlen, ← ht, List.take_left]
      rw [htake]
      intro c hc
      exact hP c hc
    · exact ihcaps s prev r1 hr1 str hstr

theorem searchAux_capsIn {P : Char → Bool} {r : RE} (hr : CapsIn P r) :
    ∀ s prev caps, searchAux r s prev = some caps →
      ∀ str ∈ caps, ∀ c ∈ str.toList, P c = true := by
  intro s
  induction s with
  | nil =>
    intro prev caps h
    rw [searchAux] at h
    cases hm : mrun r [] prev with
    | nil => rw [hm] at h; exact absurd h (by simp)
    | cons res tail =>
      rw [hm] at h
      rcases Option.some.injEq .. ▸ h with rfl
      exact mrun_capsIn hr [] prev res (by rw [hm]; exact List.mem_cons_self res tail)
  | cons c rest ih =>
    intro prev caps h
    rw [searchAux] at h
    cases hm : mrun r (c :: rest) prev with
    | nil =>
      rw [hm] at h
      exact ih (some c) caps h
    | cons res tail =>
      rw [hm] at h
      rcases Option.some.injEq .. ▸ h with rfl
      exact mrun_capsIn hr (c :: rest) prev res (by rw [hm]; exact List.mem_cons_self res tail)

theorem research_capsIn {P : Char → Bool} {r : RE} (hr : CapsIn P r)
    (text : String) (caps : List String) (h : research r text = some caps) :
    ∀ str ∈ caps, ∀ c ∈ str.toList, P c = true :=
  searchAux_capsIn hr text.toList none caps h

theorem firstMatch_capsIn {P : Char → Bool} (rules : List RE)
    (hrules : ∀ r ∈ rules, CapsIn P r) (text : String) (caps : List String)
    (h : firstMatch rules text = some caps) :
    ∀ str ∈ caps, ∀ c ∈ str.toList, P c = true := by
  induction rules with
  | nil => simp [firstMatch] at h
  | cons r rs ih =>
    rw [firstMatch] at h
    cases hres : research r text with
    | none =>
      rw [hres] at h
      exact ih (fun q hq => hrules q (List.mem_cons_of_mem r hq)) h
    | some caps2 =>
      rw [hres] at h
      rcases Option.some.injEq .. ▸ h with rfl
      exact research_capsIn (hrules r (List.mem_cons_self r rs)) text caps2 hres

theorem clsImp_digit_dateP : clsImp Char.isDigit dateP := by
  intro c h
  simp [dateP, h]

theorem clsImp_sepP_dateP : clsImp sepP dateP := by
  intro c h
  simp [dateP, h]

theorem consumesOnly_dateTok : ConsumesOnly dateP dateTok := by
  apply ConsumesOnly.seq (.repE clsImp_digit_dateP)
  apply ConsumesOnly.seq (.repU clsImp_digit_dateP)
  apply ConsumesOnly.seq (.cls clsImp_sepP_dateP)
  apply ConsumesOnly.seq (.repE clsImp_digit_dateP)
  apply ConsumesOnly.seq (.repU clsImp_digit_dateP)
  apply ConsumesOnly.seq (.cls clsImp_sepP_dateP)
  apply ConsumesOnly.seq (.repE clsImp_digit_dateP)
  exact ConsumesOnly.seq (.repU clsImp_digit_dateP) .eps

theorem capsIn_dateTok : CapsIn dateP dateTok :=
  .seq .repE (.seq .repU (.seq .cls (.seq .repE (.seq .repU (.seq .cls
    (.seq .repE (.seq .repU .eps)))))))

theorem capsIn_dateGroup : CapsIn dateP dateGroup :=
  .group consumesOnly_dateTok capsIn_dateTok

theorem capsIn_lit (P : Char → Bool) (s : String) : CapsIn P (lit s) := by
  unfold lit pySeq
  induction s.toList with
  | nil => exact .eps
  | cons c cs ih => exact .seq .cls ih

theorem capsIn_sp1 (P : Char → Bool) : CapsIn P sp1 := .seq .cls .starG

theorem capsIn_colSp1 (P : Char → Bool) : CapsIn P colSp1 := .seq .cls .starG

theorem capsIn_pySeq {P : Char → Bool} {l : List RE} (h : ∀ r ∈ l, CapsIn P r) :
    CapsIn P (pySeq l) := by
  induction l with
  | nil => exact .eps
  | cons r rs ih =>
    exact .seq (h r (List.mem_cons_self r rs))
      (ih fun q hq => h q (List.mem_cons_of_mem r hq))

theorem billing_capsIn : ∀ r ∈ billingPatterns, CapsIn dateP r := by
  intro r hr
  fin_cases hr <;>
  · apply capsIn_pySeq
    intro x hx
    fin_cases hx <;>
      first
        | exact capsIn_lit dateP _
        | exact capsIn_sp1 dateP
        | exact capsIn_colSp1 dateP
        | exact capsIn_dateGroup

/-- C4: for every text, the billing-cycle extractor returns either both a
start date and an end date (when some range rule matches: the captured dates
consist of digits and separators, so they never equal the sentinel) or the
sentinel "N/A" for both fields; never one field filled and the other a
sentinel. -/
theorem c4_billing_both_or_neither (text : String) :
    ((extract_billing_cycle text).start_date = "N/A" ∧
      (extract_billing_cycle text).end_date = "N/A") ∨
    ((extract_billing_cycle text).start_date ≠ "N/A" ∧
      (extract_billing_cycle text).end_date ≠ "N/A") := by
  unfold extract_billing_cycle
  cases hfm : firstMatch billingPatterns text with
  | none => exact Or.inl ⟨rfl, rfl⟩
  | some caps =>
    have hchars := firstMatch_capsIn billingPatterns billing_capsIn text caps hfm
    rcases caps with - | ⟨a, - | ⟨b, rest⟩⟩
    · exact Or.inl ⟨rfl, rfl⟩
    · exact Or.inl ⟨rfl, rfl⟩
    · refine Or.inr ⟨?_, ?_⟩
      · show a ≠ "N/A"
        intro hEq
        have hN := hchars a (by simp) 'N' (by rw [hEq]; decide)
        exact absurd hN (by decide)
      · show b ≠ "N/A"
        intro hEq
        have hN := hchars b (by simp) 'N' (by rw [hEq]; decide)
        exact absurd hN (by decide)

end SureFinance
